import Mathlib

/-!
Verification of the `clod` terminal drawing engine against its specification.

The Rust sources are shallowly embedded: machine integers (`u16`, `u8`, `i32`)
are modelled as `Nat`/`Int` with explicit `% 2^w` reductions exactly where the
Rust types force a truncating conversion or wrapping arithmetic, `f32`
arithmetic is modelled over `ℚ` (all concrete values appearing in the settled
claims are exactly representable), mutation becomes explicit state passing, and
fallible lookups return `Option`.
-/

namespace Clod

/-- `glam::U16Vec2`: a 2D vector of `u16` components (modelled as `Nat`,
with `% 65536` applied wherever the Rust `u16` arithmetic can wrap). -/
structure U16Vec2 where
  x : Nat
  y : Nat
deriving DecidableEq, Repr

/-- `glam::U16Vec2::element_product`: `x * y` computed in `u16` (wraps). -/
def U16Vec2.element_product (v : U16Vec2) : Nat :=
  (v.x * v.y) % 65536

/-- `glam::IVec2`: a 2D vector of `i32` components. -/
structure IVec2 where
  x : Int
  y : Int
deriving DecidableEq, Repr

/-- `IVec2::as_u16vec2`: per-component `i32 as u16` cast, which truncates to
the low 16 bits (two's complement), i.e. reduces modulo `2^16`. -/
def IVec2.as_u16vec2 (v : IVec2) : U16Vec2 :=
  { x := (v.x % 65536).toNat, y := (v.y % 65536).toNat }

/-- `crossterm::style::Color`. -/
inductive Color where
  | Reset
  | Black
  | DarkGrey
  | Red
  | DarkRed
  | Green
  | DarkGreen
  | Yellow
  | DarkYellow
  | Blue
  | DarkBlue
  | Magenta
  | DarkMagenta
  | Cyan
  | DarkCyan
  | White
  | Grey
  | Rgb (r g b : Nat)
  | AnsiValue (v : Nat)
deriving DecidableEq, Repr

/-- `rgb::Rgb<u8>` (channels are `u8`, modelled as `Nat`). -/
structure Rgb8 where
  r : Nat
  g : Nat
  b : Nat
deriving DecidableEq, Repr

/-- `crossterm::style::ContentStyle`; the attribute bitset is modelled as a
`Nat` bit mask (its exact encoding is irrelevant to the settled claims, only
its equality test is used by the diff). -/
structure ContentStyle where
  foreground_color : Option Color := none
  background_color : Option Color := none
  underline_color : Option Color := none
  attributes : Nat := 0
deriving DecidableEq, Repr

/-- `Cell` from `engine/renderer.rs`: a glyph plus a style. -/
structure Cell where
  c : Char
  style : ContentStyle
deriving DecidableEq, Repr

/-- `Cell::default()`: a space with the default (empty) style. -/
def Cell.defaultCell : Cell :=
  { c := ' ', style := {} }

/-- `Cell::with_background_color`. -/
def Cell.with_background_color (color : Option Color) : Cell :=
  { c := ' ', style := { background_color := color } }

/-! ## The half-block sub-pixel state machine (`BlockCell`, `BlockCellMut`) -/

namespace BlockCell

/-- `BlockCell::at_top`. -/
def at_top (cell : Cell) : Option Color :=
  if cell.c = ' ' then none
  else if cell.c = '▀' ∨ cell.c = '█' then cell.style.foreground_color
  else if cell.c = '▄' then cell.style.background_color
  else none

/-- `BlockCell::at_bottom`. -/
def at_bottom (cell : Cell) : Option Color :=
  if cell.c = ' ' then none
  else if cell.c = '▄' ∨ cell.c = '█' then cell.style.foreground_color
  else if cell.c = '▀' then cell.style.background_color
  else none

end BlockCell

namespace BlockCellMut

/-- `BlockCellMut::unset_top`. -/
def unset_top (cell : Cell) : Cell :=
  if cell.c = ' ' then
    match cell.style.background_color with
    | some color =>
        { cell with
          c := '▄'
          style := { cell.style with
                     foreground_color := some color, background_color := none } }
    | none => cell
  else if cell.c = '▀' then
    match cell.style.background_color with
    | some color =>
        { cell with
          c := '▄'
          style := { cell.style with
                     foreground_color := some color, background_color := none } }
    | none =>
        { cell with c := ' ', style := { cell.style with foreground_color := none } }
  else if cell.c = '▄' then
    { cell with style := { cell.style with background_color := none } }
  else if cell.c = '█' then
    { cell with c := '▄', style := { cell.style with background_color := none } }
  else
    { cell with
      c := ' '
      style := { cell.style with foreground_color := none, background_color := none } }

/-- `BlockCellMut::unset_bottom`. -/
def unset_bottom (cell : Cell) : Cell :=
  if cell.c = ' ' then
    match cell.style.background_color with
    | some color =>
        { cell with
          c := '▀'
          style := { cell.style with
                     foreground_color := some color, background_color := none } }
    | none => cell
  else if cell.c = '▀' then
    { cell with style := { cell.style with background_color := none } }
  else if cell.c = '▄' then
    match cell.style.background_color with
    | some color =>
        { cell with
          c := '▀'
          style := { cell.style with
                     foreground_color := some color, background_color := none } }
    | none =>
        { cell with c := ' ', style := { cell.style with foreground_color := none } }
  else if cell.c = '█' then
    { cell with c := '▀', style := { cell.style with background_color := none } }
  else
    { cell with
      c := ' '
      style := { cell.style with foreground_color := none, background_color := none } }

/-- `BlockCellMut::set_top`. -/
def set_top (cell : Cell) (color : Option Color) : Cell :=
  if color.isNone then unset_top cell
  else if cell.c = ' ' then
    { cell with c := '▀', style := { cell.style with foreground_color := color } }
  else if cell.c = '▀' then
    { cell with style := { cell.style with foreground_color := color } }
  else if cell.c = '▄' then
    { cell with style := { cell.style with background_color := color } }
  else if cell.c = '█' then
    { cell with c := '▄', style := { cell.style with background_color := color } }
  else
    { cell with
      c := '▀'
      style := { cell.style with foreground_color := color, background_color := none } }

/-- `BlockCellMut::set_bottom`. -/
def set_bottom (cell : Cell) (color : Option Color) : Cell :=
  if color.isNone then unset_bottom cell
  else if cell.c = ' ' then
    { cell with c := '▄', style := { cell.style with foreground_color := color } }
  else if cell.c = '▀' then
    { cell with style := { cell.style with background_color := color } }
  else if cell.c = '▄' then
    { cell with style := { cell.style with foreground_color := color } }
  else if cell.c = '█' then
    { cell with c := '▀', style := { cell.style with background_color := color } }
  else
    { cell with
      c := '▄'
      style := { cell.style with foreground_color := color, background_color := none } }

end BlockCellMut

/-! ## `DoubleBuffer` -/

/-- `DoubleBuffer` from `engine/renderer.rs`: `hidden` is the write grid,
`display` the last-rendered grid. -/
structure DoubleBuffer where
  display : List Cell
  hidden : List Cell
  size : U16Vec2
  default_cell : Option Cell
deriving DecidableEq, Repr

namespace DoubleBuffer

/-- `DoubleBuffer::from_size` (the `vec!` length is
`size.element_product() as usize`, a `u16` product). -/
def from_size (size : U16Vec2) : DoubleBuffer :=
  { display := List.replicate size.element_product Cell.defaultCell
    hidden := List.replicate size.element_product Cell.defaultCell
    size := size
    default_cell := none }

/-- `DoubleBuffer::from_values` (note the `height, width` argument order). -/
def from_values (height width : Nat) : DoubleBuffer :=
  from_size { x := width, y := height }

/-- `DoubleBuffer::resize`. -/
def resize (b : DoubleBuffer) (size : U16Vec2) : DoubleBuffer :=
  if b.size = size then b
  else
    { display := List.replicate size.element_product (b.default_cell.getD Cell.defaultCell)
      hidden := List.replicate size.element_product (b.default_cell.getD Cell.defaultCell)
      size := size
      default_cell := b.default_cell }

/-- `DoubleBuffer::index_to_position`: the `idx as u16` cast wraps. -/
def index_to_position (b : DoubleBuffer) (idx : Nat) : U16Vec2 :=
  { x := (idx % 65536) % b.size.x, y := (idx % 65536) / b.size.x }

/-- `DoubleBuffer::position_to_index`: computed in `u16` arithmetic
(multiplication and addition wrap) before widening to `usize`. -/
def position_to_index (b : DoubleBuffer) (pos : U16Vec2) : Nat :=
  ((b.size.x * pos.y) % 65536 + pos.x) % 65536

/-- `DoubleBuffer::len` (the write grid's length). -/
def len (b : DoubleBuffer) : Nat := b.hidden.length

/-- `DoubleBuffer::get`. -/
def get (b : DoubleBuffer) (index : Nat) : Option Cell := b.hidden.get? index

/-- `DoubleBuffer::get_mut`, modelled as the index of the cell a successful
`Vec::get_mut` would borrow (`none` exactly when `get_mut` returns `None`). -/
def get_mut (b : DoubleBuffer) (index : Nat) : Option Nat :=
  if index < b.hidden.length then some index else none

/-- `DoubleBuffer::diff`. -/
def diff (b : DoubleBuffer) (redraw : Bool) : List (Cell × U16Vec2) :=
  (List.range b.len).filterMap (fun i =>
    if redraw = true ∨ b.hidden.get? i ≠ b.display.get? i then
      (b.hidden.get? i).map (fun cell => (cell, b.index_to_position i))
    else none)

/-- `DoubleBuffer::swap`: exchange the grids, then reset the new write grid
to the default cell. -/
def swap (b : DoubleBuffer) : DoubleBuffer :=
  { b with
    display := b.hidden
    hidden := List.replicate b.display.length (b.default_cell.getD Cell.defaultCell) }

/-- `DoubleBuffer::bounds`. -/
def bounds (b : DoubleBuffer) (position : U16Vec2) : Bool :=
  position.x < b.size.x && position.y < b.size.y

/-- `DoubleBuffer::at`. -/
def atPos (b : DoubleBuffer) (normalized_position : U16Vec2) : Option Cell :=
  if b.bounds normalized_position then b.get (b.position_to_index normalized_position)
  else none

/-- `DoubleBuffer::at_mut`, modelled as the index of the borrowed cell. -/
def at_mut (b : DoubleBuffer) (normalized_position : U16Vec2) : Option Nat :=
  if b.bounds normalized_position then b.get_mut (b.position_to_index normalized_position)
  else none

/-- `DoubleBuffer::set_default_cell`. -/
def set_default_cell (b : DoubleBuffer) (cell : Option Cell) : DoubleBuffer :=
  { b with default_cell := cell }

/-- Applying a mutation through `at_mut` (the caller obtains `&mut Cell` and
rewrites it in place; here the write grid is updated functionally). -/
def modifyAt (b : DoubleBuffer) (pos : U16Vec2) (f : Cell → Cell) : DoubleBuffer :=
  match b.at_mut pos with
  | none => b
  | some i => { b with hidden := b.hidden.set i (f (b.hidden.getD i Cell.defaultCell)) }

end DoubleBuffer

/-! ## `Renderer` -/

/-- `Renderer` from `engine/renderer.rs` (the terminal handle itself is
external I/O and carries no state relevant to the claims). -/
structure Renderer where
  buffer : DoubleBuffer
  redraw : Bool
deriving DecidableEq, Repr

namespace Renderer

/-- `Renderer::new`: the buffer is sized from `terminal::size()` (supplied
here as `rows`, `cols`) and the redraw flag starts out `false`. -/
def new (rows cols : Nat) : Renderer :=
  { buffer := DoubleBuffer.from_values rows cols, redraw := false }

/-- The diff taken by `Renderer::render`
(`let diff = self.buffer.diff(self.redraw);`). -/
def renderDiff (r : Renderer) : List (Cell × U16Vec2) :=
  r.buffer.diff r.redraw

/-- The buffer/flag state after `Renderer::render` (output emission aside):
the redraw flag is cleared and the buffers swapped. -/
def renderState (r : Renderer) : Renderer :=
  { buffer := r.buffer.swap, redraw := false }

/-- `Renderer::resize`. -/
def resize (r : Renderer) (size : U16Vec2) : Renderer :=
  { buffer := r.buffer.resize size, redraw := true }

/-- `Renderer::get_background_color`. -/
def get_background_color (r : Renderer) : Option Color :=
  r.buffer.default_cell.bind (fun cell => cell.style.background_color)

/-- `Renderer::set_background_color`. -/
def set_background_color (r : Renderer) (color : Option Color) : Renderer :=
  { buffer := r.buffer.set_default_cell (some (Cell.with_background_color color))
    redraw := true }

/-- `Renderer::size`. -/
def size (r : Renderer) : U16Vec2 := r.buffer.size

end Renderer

/-! ## `SimpleCanvas`: pixel-level drawing -/

/-- `SimpleCanvas` from `engine/mod.rs`. -/
structure SimpleCanvas where
  renderer : Renderer
deriving DecidableEq, Repr

namespace SimpleCanvas

/-- `SimpleCanvas::size`: the canvas doubles the vertical resolution; the
`u16` multiplication `render_size.y * 2` wraps. -/
def size (c : SimpleCanvas) : U16Vec2 :=
  { x := c.renderer.size.x, y := (c.renderer.size.y * 2) % 65536 }

/-- `SimpleCanvas::half_block_position_to_rendered_position`. -/
def half_block_position_to_rendered_position (c : SimpleCanvas) (pos : U16Vec2) :
    Option U16Vec2 :=
  if c.size.x ≤ pos.x ∨ c.size.y ≤ pos.y then none
  else some { x := pos.x, y := pos.y / 2 }

/-- `SimpleCanvas::draw`. -/
def draw (c : SimpleCanvas) (pos : U16Vec2) (color : Option Color) : SimpleCanvas :=
  match c.half_block_position_to_rendered_position pos with
  | none => c
  | some rpos =>
      { renderer := { c.renderer with
          buffer := c.renderer.buffer.modifyAt rpos (fun cell =>
            if pos.y % 2 = 0 then BlockCellMut.set_top cell color
            else BlockCellMut.set_bottom cell color) } }

/-- `SimpleCanvas::color_at`. -/
def color_at (c : SimpleCanvas) (pos : U16Vec2) : Option Color :=
  match (c.half_block_position_to_rendered_position pos).bind
      (fun rpos => c.renderer.buffer.atPos rpos) with
  | none => none
  | some cell =>
      if pos.y % 2 = 0 then BlockCell.at_top cell else BlockCell.at_bottom cell

/-- `SimpleCanvas::point_with_color`. -/
def point_with_color (c : SimpleCanvas) (pos : IVec2) (color : Color) : SimpleCanvas :=
  if pos.x < 0 ∨ pos.y < 0 then c
  else c.draw pos.as_u16vec2 (some color)

/-- `SimpleCanvas::erase`. -/
def erase (c : SimpleCanvas) (pos : IVec2) : SimpleCanvas :=
  if pos.x < 0 ∨ pos.y < 0 then c
  else c.draw pos.as_u16vec2 none

/-- `SimpleCanvas::at`. -/
def atPixel (c : SimpleCanvas) (pos : IVec2) : Option Color :=
  if pos.x < 0 ∨ pos.y < 0 then none
  else c.color_at pos.as_u16vec2

end SimpleCanvas

/-! ## `glam::Vec2` over `ℚ` (standing in for `f32`) -/

/-- `glam::Vec2`; `f32` components are modelled as rationals. -/
structure Vec2 where
  x : ℚ
  y : ℚ
deriving DecidableEq, Repr

namespace Vec2

def add (a b : Vec2) : Vec2 := { x := a.x + b.x, y := a.y + b.y }

def sub (a b : Vec2) : Vec2 := { x := a.x - b.x, y := a.y - b.y }

def neg (a : Vec2) : Vec2 := { x := -a.x, y := -a.y }

/-- Division by the scalar 2 (`/ 2.0`). -/
def half (a : Vec2) : Vec2 := { x := a.x / 2, y := a.y / 2 }

def with_x (a : Vec2) (x : ℚ) : Vec2 := { a with x := x }

def with_y (a : Vec2) (y : ℚ) : Vec2 := { a with y := y }

/-- `Vec2::distance_squared`. -/
def distance_squared (a b : Vec2) : ℚ := (a.x - b.x) ^ 2 + (a.y - b.y) ^ 2

/-- Component-wise `floor`. -/
def floorV (a : Vec2) : Vec2 := { x := (Int.floor a.x : ℚ), y := (Int.floor a.y : ℚ) }

/-- Component-wise `ceil`. -/
def ceilV (a : Vec2) : Vec2 := { x := (Int.ceil a.x : ℚ), y := (Int.ceil a.y : ℚ) }

end Vec2

/-- `f32 as u16`: truncate toward zero, saturating to `[0, 65535]`. -/
def satU16 (q : ℚ) : Nat := min 65535 (Int.floor q).toNat

/-- `f32 as u8`: truncate toward zero, saturating to `[0, 255]`. -/
def rustAsU8 (q : ℚ) : Nat := min 255 (Int.floor q).toNat

/-- `Vec2::as_u16vec2` (saturating float-to-integer casts). -/
def Vec2.as_u16vec2 (a : Vec2) : U16Vec2 := { x := satU16 a.x, y := satU16 a.y }

/-- `U16Vec2::as_vec2`. -/
def U16Vec2.as_vec2 (v : U16Vec2) : Vec2 := { x := (v.x : ℚ), y := (v.y : ℚ) }

/-- The f32 lerp closure `|l, r, v| l + (r - l) * v` from `renderer.rs`. -/
def lerp (l r v : ℚ) : ℚ := l + (r - l) * v

/-! ## `CanvasAlignment` (`style/mod.rs`) -/

/-- The `CanvasAlignment` bitflags, one `Bool` per flag. -/
structure CanvasAlignment where
  center : Bool
  top : Bool
  bottom : Bool
  left : Bool
  right : Bool
deriving DecidableEq, Repr

namespace CanvasAlignment

def CENTER : CanvasAlignment := ⟨true, false, false, false, false⟩
def TOP : CanvasAlignment := ⟨false, true, false, false, false⟩
def BOTTOM : CanvasAlignment := ⟨false, false, true, false, false⟩
def LEFT : CanvasAlignment := ⟨false, false, false, true, false⟩
def RIGHT : CanvasAlignment := ⟨false, false, false, false, true⟩

/-- Bitwise union of two flag sets. -/
def union (a b : CanvasAlignment) : CanvasAlignment :=
  ⟨a.center || b.center, a.top || b.top, a.bottom || b.bottom,
   a.left || b.left, a.right || b.right⟩

/-- `CanvasAlignment::apply`, transcribed step for step: each flag folds its
offset into `current_vec` via `current_vec.map(|pos| pos + d).or(Some(d))`,
`CENTER` halves the accumulated offset, and the result is
`(half_size + current_vec.unwrap_or(ZERO)).as_u16vec2()`. -/
def apply (a : CanvasAlignment) (canvas_size : U16Vec2) : U16Vec2 :=
  let canvas_limit := canvas_size.as_vec2
  let half_size := canvas_limit.half
  let v0 : Option Vec2 := none
  let v1 : Option Vec2 :=
    if a.top then
      let t := (half_size.with_x 0).neg
      match v0 with
      | some p => some (p.add t)
      | none => some t
    else v0
  let v2 : Option Vec2 :=
    if a.bottom then
      let d := half_size.with_x 0
      match v1 with
      | some p => some (p.add d)
      | none => some d
    else v1
  let v3 : Option Vec2 :=
    if a.left then
      let d := (half_size.with_y 0).neg
      match v2 with
      | some p => some (p.add d)
      | none => some d
    else v2
  let v4 : Option Vec2 :=
    if a.right then
      let d := half_size.with_y 0
      match v3 with
      | some p => some (p.add d)
      | none => some d
    else v3
  let v5 : Option Vec2 := if a.center then v4.map Vec2.half else v4
  (half_size.add (v5.getD { x := 0, y := 0 })).as_u16vec2

end CanvasAlignment

/-! ## `Circle` -/

/-- Modelled from the spec: the `Circle` descriptor value — "{radius, optional
inner stroke width, optional outer stroke width, stroke color, filled flag}".
Its `struct` declaration lives in a source file not included under `src/`;
the accessor methods below are transcribed from `engine/renderer.rs`. -/
structure Circle where
  radius : ℚ
  inner_stroke : Option ℚ
  outer_stroke : Option ℚ
  stroke_color : Option Rgb8
  filled : Bool
deriving DecidableEq, Repr

namespace Circle

/-- `Circle::inner_stroke()` from `engine/renderer.rs` (named `Value` to avoid
clashing with the field projection): returns `0.5` only when BOTH strokes are
unset, otherwise `self.inner_stroke.unwrap_or_default()`. -/
def innerStrokeValue (c : Circle) : ℚ :=
  if c.inner_stroke.isNone ∧ c.outer_stroke.isNone then 1 / 2
  else c.inner_stroke.getD 0

/-- `Circle::outer_stroke()` from `engine/renderer.rs`. -/
def outerStrokeValue (c : Circle) : ℚ :=
  if c.inner_stroke.isNone ∧ c.outer_stroke.isNone then 1 / 2
  else c.outer_stroke.getD 0

end Circle

/-! ## Anti-aliased circle rasterizer -/

namespace SimpleCanvas

/-- The `get_sub_pixel_points` closure of `SimpleCanvas::draw_aa_circle`:
a `(divisions+1) × (divisions+1)` grid of sample points centred on
`canvas_pos`, where `divisions = 2^pow_of_2`. -/
def get_sub_pixel_points (canvas_pos : U16Vec2) (pow_of_2 : Nat) : List Vec2 :=
  let divisions : Nat := 2 ^ pow_of_2
  let step : ℚ := 1 / (divisions : ℚ)
  (List.range (divisions + 1)).flatMap (fun i =>
    (List.range (divisions + 1)).map (fun j =>
      canvas_pos.as_vec2.add
        { x := (j : ℚ) * step - 1 / 2, y := (i : ℚ) * step - 1 / 2 }))

/-- `SimpleCanvas::background_rgb_at_or_default`. -/
def background_rgb_at_or_default (c : SimpleCanvas) (pos : U16Vec2) : Rgb8 :=
  let base : Option Color :=
    match c.color_at pos with
    | some col => some col
    | none => c.renderer.get_background_color
  match base with
  | some (Color.Rgb r g b) => { r := r, g := g, b := b }
  | _ => { r := 0, g := 0, b := 0 }

/-- The per-pixel body of the `draw_aa_circle` double loop. -/
def aaCircleBody (pos : Vec2) (outer_stroke_sq inner_stroke_sq : ℚ) (color : Rgb8)
    (c : SimpleCanvas) (canvas_pos : U16Vec2) : SimpleCanvas :=
  let pixel_vertices := get_sub_pixel_points canvas_pos 1
  if pixel_vertices.all (fun p => decide (outer_stroke_sq < p.distance_squared pos)) then
    c
  else if pixel_vertices.all (fun p => decide (p.distance_squared pos < inner_stroke_sq)) then
    c
  else if pixel_vertices.all (fun p =>
      decide (p.distance_squared pos ≤ outer_stroke_sq ∧
              inner_stroke_sq ≤ p.distance_squared pos)) then
    c.draw canvas_pos (some (Color.Rgb color.r color.g color.b))
  else
    let sub_pixel_vertices := get_sub_pixel_points canvas_pos 2
    let count := (sub_pixel_vertices.filter (fun p =>
      decide (p.distance_squared pos ≤ outer_stroke_sq ∧
              inner_stroke_sq ≤ p.distance_squared pos))).length
    let magnitude : ℚ := (count : ℚ) / (sub_pixel_vertices.length : ℚ)
    let background_color := c.background_rgb_at_or_default canvas_pos
    c.draw canvas_pos (some (Color.Rgb
      (rustAsU8 (lerp (background_color.r : ℚ) (color.r : ℚ) magnitude))
      (rustAsU8 (lerp (background_color.g : ℚ) (color.g : ℚ) magnitude))
      (rustAsU8 (lerp (background_color.b : ℚ) (color.b : ℚ) magnitude))))

/-- `SimpleCanvas::draw_aa_circle`. -/
def draw_aa_circle (c : SimpleCanvas) (pos : Vec2) (circle : Circle) : SimpleCanvas :=
  if circle.radius ≤ 0 then c
  else
    let color := circle.stroke_color.getD { r := 255, g := 255, b := 255 }
    let outer_stroke_sq :=
      (circle.radius + circle.outerStrokeValue) * (circle.radius + circle.outerStrokeValue)
    let inner_stroke_sq :=
      (circle.radius - circle.innerStrokeValue) * (circle.radius - circle.innerStrokeValue)
    let span_vector : Vec2 :=
      { x := circle.radius + circle.outerStrokeValue
        y := circle.radius + circle.outerStrokeValue }
    let top_left := ((pos.sub span_vector).add { x := 1 / 2, y := 1 / 2 }).floorV.as_u16vec2
    let bottom_right := ((pos.add span_vector).add { x := 1 / 2, y := 1 / 2 }).ceilV.as_u16vec2
    (List.range' top_left.y (bottom_right.y - top_left.y)).foldl (fun s y =>
      (List.range' top_left.x (bottom_right.x - top_left.x)).foldl (fun s' x =>
        aaCircleBody pos outer_stroke_sq inner_stroke_sq color s' { x := x, y := y }) s) c

end SimpleCanvas

/-! ## Bresenham (the `line_drawing` crate, used by `SimpleCanvas::draw_line`) -/

namespace Octant

/-- `line_drawing::Octant::new`. -/
def new (start endp : Int × Int) : Nat :=
  let dx0 := endp.1 - start.1
  let dy0 := endp.2 - start.2
  let v0 : Nat := 0
  let dx1 := if dy0 < 0 then -dx0 else dx0
  let dy1 := if dy0 < 0 then -dy0 else dy0
  let v1 := if dy0 < 0 then v0 + 4 else v0
  let dx2 := if dx1 < 0 then dy1 else dx1
  let dy2 := if dx1 < 0 then -dx1 else dy1
  let v2 := if dx1 < 0 then v1 + 2 else v1
  if dx2 < dy2 then v2 + 1 else v2

/-- `line_drawing::Octant::to`. -/
def toOct (value : Nat) (p : Int × Int) : Int × Int :=
  if value = 0 then (p.1, p.2)
  else if value = 1 then (p.2, p.1)
  else if value = 2 then (p.2, -p.1)
  else if value = 3 then (-p.1, p.2)
  else if value = 4 then (-p.1, -p.2)
  else if value = 5 then (-p.2, -p.1)
  else if value = 6 then (-p.2, p.1)
  else (p.1, -p.2)

/-- `line_drawing::Octant::from`. -/
def fromOct (value : Nat) (p : Int × Int) : Int × Int :=
  if value = 0 then (p.1, p.2)
  else if value = 1 then (p.2, p.1)
  else if value = 2 then (-p.2, p.1)
  else if value = 3 then (-p.1, p.2)
  else if value = 4 then (-p.1, -p.2)
  else if value = 5 then (-p.2, -p.1)
  else if value = 6 then (p.2, -p.1)
  else (p.1, -p.2)

end Octant

/-- The iteration of `line_drawing::Bresenham` (`next` loops while
`point.0 <= end_x`); the fuel `(end_x + 1 - point.0).toNat` counts the exact
number of remaining iterations, so the recursion never truncates. -/
def bresenhamLoop (octant : Nat) (delta_x delta_y end_x : Int) :
    Nat → Int × Int → Int → List (Int × Int)
  | 0, _, _ => []
  | fuel + 1, point, error =>
      if point.1 ≤ end_x then
        let out := Octant.fromOct octant point
        let point2 := if 0 ≤ error then point.2 + 1 else point.2
        let error2 := if 0 ≤ error then error - delta_x else error
        out :: bresenhamLoop octant delta_x delta_y end_x fuel
          (point.1 + 1, point2) (error2 + delta_y)
      else []

/-- The full point sequence produced by `Bresenham::new(start, end)`. -/
def bresenhamPoints (start endp : Int × Int) : List (Int × Int) :=
  let octant := Octant.new start endp
  let s := Octant.toOct octant start
  let e := Octant.toOct octant endp
  let delta_x := e.1 - s.1
  let delta_y := e.2 - s.2
  bresenhamLoop octant delta_x delta_y e.1 (e.1 + 1 - s.1).toNat s (delta_y - delta_x)

namespace SimpleCanvas

/-- `SimpleCanvas::draw_line`: Bresenham traversal, skipping points with a
negative coordinate, then drawing via the (wrapping) `as u16` casts. -/
def draw_line (c : SimpleCanvas) (start endp : IVec2) (color : Option Color) :
    SimpleCanvas :=
  (bresenhamPoints (start.x, start.y) (endp.x, endp.y)).foldl (fun s p =>
    if p.1 < 0 ∨ p.2 < 0 then s
    else s.draw { x := (p.1 % 65536).toNat, y := (p.2 % 65536).toNat } color) c

/-- One step of `SimpleCanvas::draw_aa_line`: paint a traversed point
`((x, y), magnitude)` (the `i32 as u16` casts wrap). -/
def aaLineStep (color : Rgb8) (c : SimpleCanvas) (pm : (Int × Int) × ℚ) : SimpleCanvas :=
  let canvas_pos : U16Vec2 :=
    { x := (pm.1.1 % 65536).toNat, y := (pm.1.2 % 65536).toNat }
  let background_color := c.background_rgb_at_or_default canvas_pos
  c.draw canvas_pos (some (Color.Rgb
    (rustAsU8 (lerp (background_color.r : ℚ) (color.r : ℚ) pm.2))
    (rustAsU8 (lerp (background_color.g : ℚ) (color.g : ℚ) pm.2))
    (rustAsU8 (lerp (background_color.b : ℚ) (color.b : ℚ) pm.2))))

/-- `SimpleCanvas::draw_aa_line`, parameterised by the `(point, coverage)`
traversal that the external `line_drawing::XiaolinWu` iterator yields. -/
def draw_aa_line_on (c : SimpleCanvas) (traversal : List ((Int × Int) × ℚ))
    (color : Option Rgb8) : SimpleCanvas :=
  traversal.foldl (aaLineStep (color.getD { r := 255, g := 255, b := 255 })) c

end SimpleCanvas

/-! ## Lemmas about the half-block state machine -/

/-- Setting the top sub-pixel makes it read back as that color, whatever the
starting cell state. -/
theorem at_top_set_top (cell : Cell) (col : Color) :
    BlockCell.at_top (BlockCellMut.set_top cell (some col)) = some col := by
  unfold BlockCellMut.set_top BlockCell.at_top
  by_cases h1 : cell.c = ' ' <;> by_cases h2 : cell.c = '▀' <;>
    by_cases h3 : cell.c = '▄' <;> by_cases h4 : cell.c = '█' <;> simp_all

/-- Setting the bottom sub-pixel makes it read back as that color, whatever
the starting cell state. -/
theorem at_bottom_set_bottom (cell : Cell) (col : Color) :
    BlockCell.at_bottom (BlockCellMut.set_bottom cell (some col)) = some col := by
  unfold BlockCellMut.set_bottom BlockCell.at_bottom
  by_cases h1 : cell.c = ' ' <;> by_cases h2 : cell.c = '▀' <;>
    by_cases h3 : cell.c = '▄' <;> by_cases h4 : cell.c = '█' <;> simp_all

/-- After unsetting the top sub-pixel it reads back as `none`, whatever the
starting cell state. -/
theorem at_top_unset_top (cell : Cell) :
    BlockCell.at_top (BlockCellMut.unset_top cell) = none := by
  unfold BlockCellMut.unset_top BlockCell.at_top
  by_cases h1 : cell.c = ' ' <;> by_cases h2 : cell.c = '▀' <;>
    by_cases h3 : cell.c = '▄' <;> by_cases h4 : cell.c = '█' <;>
    cases hbg : cell.style.background_color <;> simp_all

/-- After unsetting the bottom sub-pixel it reads back as `none`, whatever
the starting cell state. -/
theorem at_bottom_unset_bottom (cell : Cell) :
    BlockCell.at_bottom (BlockCellMut.unset_bottom cell) = none := by
  unfold BlockCellMut.unset_bottom BlockCell.at_bottom
  by_cases h1 : cell.c = ' ' <;> by_cases h2 : cell.c = '▀' <;>
    by_cases h3 : cell.c = '▄' <;> by_cases h4 : cell.c = '█' <;>
    cases hbg : cell.style.background_color <;> simp_all

/-- The glyph produced by `set_top` is always a space or a half block. -/
theorem set_top_glyph (cell : Cell) (color : Option Color) :
    (BlockCellMut.set_top cell color).c = ' ' ∨
    (BlockCellMut.set_top cell color).c = '▀' ∨
    (BlockCellMut.set_top cell color).c = '▄' := by
  unfold BlockCellMut.set_top BlockCellMut.unset_top
  cases color <;> by_cases h1 : cell.c = ' ' <;> by_cases h2 : cell.c = '▀' <;>
    by_cases h3 : cell.c = '▄' <;> by_cases h4 : cell.c = '█' <;>
    cases hbg : cell.style.background_color <;> simp_all

/-- The glyph produced by `set_bottom` is always a space or a half block. -/
theorem set_bottom_glyph (cell : Cell) (color : Option Color) :
    (BlockCellMut.set_bottom cell color).c = ' ' ∨
    (BlockCellMut.set_bottom cell color).c = '▀' ∨
    (BlockCellMut.set_bottom cell color).c = '▄' := by
  unfold BlockCellMut.set_bottom BlockCellMut.unset_bottom
  cases color <;> by_cases h1 : cell.c = ' ' <;> by_cases h2 : cell.c = '▀' <;>
    by_cases h3 : cell.c = '▄' <;> by_cases h4 : cell.c = '█' <;>
    cases hbg : cell.style.background_color <;> simp_all

/-- The glyph produced by `unset_top` is always a space or a half block. -/
theorem unset_top_glyph (cell : Cell) :
    (BlockCellMut.unset_top cell).c = ' ' ∨
    (BlockCellMut.unset_top cell).c = '▀' ∨
    (BlockCellMut.unset_top cell).c = '▄' := by
  unfold BlockCellMut.unset_top
  by_cases h1 : cell.c = ' ' <;> by_cases h2 : cell.c = '▀' <;>
    by_cases h3 : cell.c = '▄' <;> by_cases h4 : cell.c = '█' <;>
    cases hbg : cell.style.background_color <;> simp_all

/-- The glyph produced by `unset_bottom` is always a space or a half block. -/
theorem unset_bottom_glyph (cell : Cell) :
    (BlockCellMut.unset_bottom cell).c = ' ' ∨
    (BlockCellMut.unset_bottom cell).c = '▀' ∨
    (BlockCellMut.unset_bottom cell).c = '▄' := by
  unfold BlockCellMut.unset_bottom
  by_cases h1 : cell.c = ' ' <;> by_cases h2 : cell.c = '▀' <;>
    by_cases h3 : cell.c = '▄' <;> by_cases h4 : cell.c = '█' <;>
    cases hbg : cell.style.background_color <;> simp_all

/-- C10: the sub-pixel mutation operations never produce the full-block
glyph: starting from a space or half-block glyph, every one of `set_top`,
`set_bottom`, `unset_top`, `unset_bottom` again yields a space or half-block
glyph, and no operation ever outputs the full block (so the full-block state
is only consumed, never created). -/
theorem C10_no_full_block (cell : Cell) (color : Option Color) :
    ((cell.c = ' ' ∨ cell.c = '▀' ∨ cell.c = '▄') →
      ((BlockCellMut.set_top cell color).c = ' ' ∨
        (BlockCellMut.set_top cell color).c = '▀' ∨
        (BlockCellMut.set_top cell color).c = '▄') ∧
      ((BlockCellMut.set_bottom cell color).c = ' ' ∨
        (BlockCellMut.set_bottom cell color).c = '▀' ∨
        (BlockCellMut.set_bottom cell color).c = '▄') ∧
      ((BlockCellMut.unset_top cell).c = ' ' ∨
        (BlockCellMut.unset_top cell).c = '▀' ∨
        (BlockCellMut.unset_top cell).c = '▄') ∧
      ((BlockCellMut.unset_bottom cell).c = ' ' ∨
        (BlockCellMut.unset_bottom cell).c = '▀' ∨
        (BlockCellMut.unset_bottom cell).c = '▄')) ∧
    (BlockCellMut.set_top cell color).c ≠ '█' ∧
    (BlockCellMut.set_bottom cell color).c ≠ '█' ∧
    (BlockCellMut.unset_top cell).c ≠ '█' ∧
    (BlockCellMut.unset_bottom cell).c ≠ '█' := by
  refine ⟨fun _ => ⟨set_top_glyph cell color, set_bottom_glyph cell color,
    unset_top_glyph cell, unset_bottom_glyph cell⟩, ?_, ?_, ?_, ?_⟩
  · rcases set_top_glyph cell color with h | h | h <;> simp [h]
  · rcases set_bottom_glyph cell color with h | h | h <;> simp [h]
  · rcases unset_top_glyph cell with h | h | h <;> simp [h]
  · rcases unset_bottom_glyph cell with h | h | h <;> simp [h]

/-- Witness for C10 at a concrete cell. -/
theorem C10_no_full_block_witness :
    (BlockCellMut.set_top
      { c := ' ', style := { background_color := some Color.Red } }
      (some Color.Blue)).c ≠ '█' := by
  have h := C10_no_full_block
    { c := ' ', style := { background_color := some Color.Red } } (some Color.Blue)
  exact h.2.1

/-- C2 counterexample: starting from a space glyph that carries a background
color (the state produced by `Cell::with_background_color`), `set_top` changes
the value read back for the bottom sub-pixel from `none` to that background
color, so "for every starting cell state" the claim fails. -/
theorem C2_counterexample :
    BlockCell.at_bottom
        (BlockCellMut.set_top
          { c := ' ', style := { background_color := some Color.Red } }
          (some Color.Blue)) ≠
      BlockCell.at_bottom
        { c := ' ', style := { background_color := some Color.Red } } := by
  decide

/-- C2 amended: pixels `(x, 2k)` and `(x, 2k+1)` map to the same cell `(x, k)`
(the canvas height is even, so either both or neither are in bounds), and for
every starting cell state EXCEPT a space glyph carrying a background color,
the top operations leave `at_bottom` unchanged and the bottom operations leave
`at_top` unchanged. -/
theorem C2_subpixel_independence (cell : Cell) (colt : Option Color)
    (h : cell.c ≠ ' ' ∨ cell.style.background_color = none) :
    BlockCell.at_bottom (BlockCellMut.set_top cell colt) = BlockCell.at_bottom cell ∧
    BlockCell.at_bottom (BlockCellMut.unset_top cell) = BlockCell.at_bottom cell ∧
    BlockCell.at_top (BlockCellMut.set_bottom cell colt) = BlockCell.at_top cell ∧
    BlockCell.at_top (BlockCellMut.unset_bottom cell) = BlockCell.at_top cell ∧
    (∀ (c : SimpleCanvas) (x k : Nat),
      c.half_block_position_to_rendered_position { x := x, y := 2 * k } =
        c.half_block_position_to_rendered_position { x := x, y := 2 * k + 1 } ∧
      (∀ r, c.half_block_position_to_rendered_position { x := x, y := 2 * k } = some r →
        r = { x := x, y := k })) := by
  refine ⟨?_, ?_, ?_, ?_, ?_⟩
  · unfold BlockCellMut.set_top BlockCellMut.unset_top BlockCell.at_bottom
    rcases h with h | h <;> cases colt <;>
      by_cases h1 : cell.c = ' ' <;> by_cases h2 : cell.c = '▀' <;>
      by_cases h3 : cell.c = '▄' <;> by_cases h4 : cell.c = '█' <;>
      cases hbg : cell.style.background_color <;> simp_all
  · unfold BlockCellMut.unset_top BlockCell.at_bottom
    rcases h with h | h <;>
      by_cases h1 : cell.c = ' ' <;> by_cases h2 : cell.c = '▀' <;>
      by_cases h3 : cell.c = '▄' <;> by_cases h4 : cell.c = '█' <;>
      cases hbg : cell.style.background_color <;> simp_all
  · unfold BlockCellMut.set_bottom BlockCellMut.unset_bottom BlockCell.at_top
    rcases h with h | h <;> cases colt <;>
      by_cases h1 : cell.c = ' ' <;> by_cases h2 : cell.c = '▀' <;>
      by_cases h3 : cell.c = '▄' <;> by_cases h4 : cell.c = '█' <;>
      cases hbg : cell.style.background_color <;> simp_all
  · unfold BlockCellMut.unset_bottom BlockCell.at_top
    rcases h with h | h <;>
      by_cases h1 : cell.c = ' ' <;> by_cases h2 : cell.c = '▀' <;>
      by_cases h3 : cell.c = '▄' <;> by_cases h4 : cell.c = '█' <;>
      cases hbg : cell.style.background_color <;> simp_all
  · intro c x k
    constructor
    · unfold SimpleCanvas.half_block_position_to_rendered_position
      simp only [SimpleCanvas.size, Renderer.size]
      by_cases hc : c.renderer.buffer.size.x ≤ x ∨
          c.renderer.buffer.size.y * 2 % 65536 ≤ 2 * k
      · rw [if_pos hc, if_pos (by omega)]
      · rw [if_neg hc, if_neg (by omega)]
        have : 2 * k / 2 = (2 * k + 1) / 2 := by omega
        rw [this]
    · intro r hr
      unfold SimpleCanvas.half_block_position_to_rendered_position at hr
      simp only [SimpleCanvas.size, Renderer.size] at hr
      by_cases hc : c.renderer.buffer.size.x ≤ x ∨
          c.renderer.buffer.size.y * 2 % 65536 ≤ 2 * k
      · rw [if_pos hc] at hr
        exact absurd hr (by simp)
      · rw [if_neg hc] at hr
        have hr2 := Option.some.inj hr
        rw [← hr2]
        have : 2 * k / 2 = k := by omega
        rw [this]

/-- Witness for C2 amended, at a half-block cell with both color slots set. -/
theorem C2_subpixel_independence_witness :
    (({ c := '▀',
        style := { foreground_color := some Color.Blue,
                   background_color := some Color.Red } } : Cell).c ≠ ' ') ∧
    BlockCell.at_bottom
        (BlockCellMut.set_top
          { c := '▀',
            style := { foreground_color := some Color.Blue,
                       background_color := some Color.Red } }
          (some Color.Green)) =
      BlockCell.at_bottom
        { c := '▀',
          style := { foreground_color := some Color.Blue,
                     background_color := some Color.Red } } :=
  ⟨by decide,
    (C2_subpixel_independence
      { c := '▀',
        style := { foreground_color := some Color.Blue,
                   background_color := some Color.Red } }
      (some Color.Green) (Or.inl (by decide))).1⟩

/-! ## Canvas-level draw/readback lemmas -/

/-- `half_block_position_to_rendered_position` succeeds on in-bounds pixels. -/
theorem hbp_in_bounds (c : SimpleCanvas) (pos : U16Vec2)
    (hx : pos.x < c.size.x) (hy : pos.y < c.size.y) :
    c.half_block_position_to_rendered_position pos = some { x := pos.x, y := pos.y / 2 } := by
  unfold SimpleCanvas.half_block_position_to_rendered_position
  rw [if_neg (by omega)]

/-- `half_block_position_to_rendered_position` fails on out-of-bounds pixels. -/
theorem hbp_out_of_bounds (c : SimpleCanvas) (pos : U16Vec2)
    (h : c.size.x ≤ pos.x ∨ c.size.y ≤ pos.y) :
    c.half_block_position_to_rendered_position pos = none := by
  unfold SimpleCanvas.half_block_position_to_rendered_position
  rw [if_pos h]

/-- `at_mut` yields the buffer index when position and index are in range. -/
theorem at_mut_some (b : DoubleBuffer) (pos : U16Vec2)
    (hx : pos.x < b.size.x) (hy : pos.y < b.size.y)
    (hidx : b.position_to_index pos < b.hidden.length) :
    b.at_mut pos = some (b.position_to_index pos) := by
  unfold DoubleBuffer.at_mut DoubleBuffer.bounds DoubleBuffer.get_mut
  rw [if_pos (by simp [hx, hy]), if_pos hidx]

/-- `at` reads the write grid at the computed index when in bounds. -/
theorem atPos_eq_get (b : DoubleBuffer) (pos : U16Vec2)
    (hx : pos.x < b.size.x) (hy : pos.y < b.size.y) :
    b.atPos pos = b.hidden.get? (b.position_to_index pos) := by
  unfold DoubleBuffer.atPos DoubleBuffer.bounds DoubleBuffer.get
  rw [if_pos (by simp [hx, hy])]

/-- `draw` rewritten as a write-grid update, when both lookups succeed. -/
theorem draw_eq_set (c : SimpleCanvas) (pos rpos : U16Vec2) (i : Nat)
    (color : Option Color)
    (h1 : c.half_block_position_to_rendered_position pos = some rpos)
    (h2 : c.renderer.buffer.at_mut rpos = some i) :
    c.draw pos color =
      { renderer := { c.renderer with
          buffer := { c.renderer.buffer with
            hidden := c.renderer.buffer.hidden.set i
              (if pos.y % 2 = 0 then
                BlockCellMut.set_top (c.renderer.buffer.hidden.getD i Cell.defaultCell) color
              else
                BlockCellMut.set_bottom (c.renderer.buffer.hidden.getD i Cell.defaultCell)
                  color) } } } := by
  unfold SimpleCanvas.draw DoubleBuffer.modifyAt
  rw [h1]
  dsimp only
  rw [h2]

/-- `draw` is the identity when the pixel misses the canvas. -/
theorem draw_miss (c : SimpleCanvas) (pos : U16Vec2) (color : Option Color)
    (h1 : c.half_block_position_to_rendered_position pos = none) :
    c.draw pos color = c := by
  unfold SimpleCanvas.draw
  rw [h1]

/-- `draw` is the identity when the cell lookup misses the write grid. -/
theorem draw_miss_mut (c : SimpleCanvas) (pos rpos : U16Vec2) (color : Option Color)
    (h1 : c.half_block_position_to_rendered_position pos = some rpos)
    (h2 : c.renderer.buffer.at_mut rpos = none) :
    c.draw pos color = c := by
  unfold SimpleCanvas.draw DoubleBuffer.modifyAt
  rw [h1]
  dsimp only
  rw [h2]

/-- `color_at`, expressed through the cell fetched from the write grid. -/
theorem color_at_of_get (c : SimpleCanvas) (pos : U16Vec2) (cell : Cell)
    (hx : pos.x < c.size.x) (hy : pos.y < c.size.y)
    (hbx : pos.x < c.renderer.buffer.size.x)
    (hby : pos.y / 2 < c.renderer.buffer.size.y)
    (hget : c.renderer.buffer.hidden.get?
        (c.renderer.buffer.position_to_index { x := pos.x, y := pos.y / 2 }) = some cell) :
    c.color_at pos =
      (if pos.y % 2 = 0 then BlockCell.at_top cell else BlockCell.at_bottom cell) := by
  unfold SimpleCanvas.color_at
  rw [hbp_in_bounds c pos hx hy]
  simp only [Option.some_bind]
  rw [atPos_eq_get c.renderer.buffer { x := pos.x, y := pos.y / 2 } hbx hby, hget]

/-- `color_at` is `none` whenever the write-grid cell cannot be fetched. -/
theorem color_at_none_of_miss (c : SimpleCanvas) (pos : U16Vec2)
    (h : (c.half_block_position_to_rendered_position pos).bind
        (fun rpos => c.renderer.buffer.atPos rpos) = none) :
    c.color_at pos = none := by
  unfold SimpleCanvas.color_at
  rw [h]

/-- The canvas size and buffer geometry are untouched by a write-grid update. -/
theorem draw_preserves_geometry (c : SimpleCanvas) (pos : U16Vec2)
    (color : Option Color) :
    (c.draw pos color).size = c.size ∧
    (c.draw pos color).renderer.buffer.size = c.renderer.buffer.size ∧
    (c.draw pos color).renderer.buffer.hidden.length =
      c.renderer.buffer.hidden.length := by
  cases h1 : c.half_block_position_to_rendered_position pos with
  | none =>
      rw [draw_miss c pos color h1]
      exact ⟨rfl, rfl, rfl⟩
  | some rpos =>
      cases h2 : c.renderer.buffer.at_mut rpos with
      | none =>
          rw [draw_miss_mut c pos rpos color h1 h2]
          exact ⟨rfl, rfl, rfl⟩
      | some i =>
          rw [draw_eq_set c pos rpos i color h1 h2]
          exact ⟨rfl, rfl, by simp⟩

/-- Drawing a color at an in-bounds pixel position and reading the same
position back yields that color, provided the buffer really holds
`size.x * size.y` cells and that product does not overflow the `u16`
allocation arithmetic. -/
theorem color_at_draw_some (canvas : SimpleCanvas) (pos : U16Vec2) (col : Color)
    (hlen : canvas.renderer.buffer.hidden.length =
      canvas.renderer.buffer.size.x * canvas.renderer.buffer.size.y)
    (hprod : canvas.renderer.buffer.size.x * canvas.renderer.buffer.size.y ≤ 65535)
    (hx : pos.x < canvas.size.x) (hy : pos.y < canvas.size.y) :
    (canvas.draw pos (some col)).color_at pos = some col := by
  have hsx : canvas.size.x = canvas.renderer.buffer.size.x := rfl
  have hsy : canvas.size.y = canvas.renderer.buffer.size.y * 2 % 65536 := rfl
  have hbx : pos.x < canvas.renderer.buffer.size.x := by omega
  have hsy2 : canvas.renderer.buffer.size.y * 2 % 65536 ≤
      canvas.renderer.buffer.size.y * 2 := Nat.mod_le _ _
  have hby : pos.y / 2 < canvas.renderer.buffer.size.y := by omega
  obtain ⟨sy', hsy'⟩ : ∃ s, canvas.renderer.buffer.size.y = s + 1 :=
    ⟨canvas.renderer.buffer.size.y - 1, by omega⟩
  have hA : canvas.renderer.buffer.size.x * (pos.y / 2) ≤
      canvas.renderer.buffer.size.x * sy' :=
    Nat.mul_le_mul_left _ (by omega)
  have hsucc : canvas.renderer.buffer.size.x * (sy' + 1) =
      canvas.renderer.buffer.size.x * sy' + canvas.renderer.buffer.size.x :=
    Nat.mul_succ _ _
  have hprod' : canvas.renderer.buffer.size.x * (sy' + 1) ≤ 65535 := by
    rw [← hsy']; exact hprod
  have hmod1 : canvas.renderer.buffer.size.x * (pos.y / 2) % 65536 =
      canvas.renderer.buffer.size.x * (pos.y / 2) := Nat.mod_eq_of_lt (by omega)
  have hidxval : canvas.renderer.buffer.position_to_index { x := pos.x, y := pos.y / 2 } =
      canvas.renderer.buffer.size.x * (pos.y / 2) + pos.x := by
    unfold DoubleBuffer.position_to_index
    dsimp only
    rw [hmod1]
    exact Nat.mod_eq_of_lt (by omega)
  have hidxlen : canvas.renderer.buffer.position_to_index { x := pos.x, y := pos.y / 2 } <
      canvas.renderer.buffer.hidden.length := by
    rw [hidxval, hlen, hsy']
    omega
  have hdraw := draw_eq_set canvas pos { x := pos.x, y := pos.y / 2 }
    (canvas.renderer.buffer.position_to_index { x := pos.x, y := pos.y / 2 }) (some col)
    (hbp_in_bounds canvas pos hx hy)
    (at_mut_some _ _ hbx hby hidxlen)
  have hgeom := draw_preserves_geometry canvas pos (some col)
  have hidxval2 : (canvas.draw pos (some col)).renderer.buffer.position_to_index
      { x := pos.x, y := pos.y / 2 } =
      canvas.renderer.buffer.position_to_index { x := pos.x, y := pos.y / 2 } := by
    unfold DoubleBuffer.position_to_index
    rw [hgeom.2.1]
  have hget : (canvas.draw pos (some col)).renderer.buffer.hidden.get?
      ((canvas.draw pos (some col)).renderer.buffer.position_to_index
        { x := pos.x, y := pos.y / 2 }) =
      some (if pos.y % 2 = 0 then
          BlockCellMut.set_top
            (canvas.renderer.buffer.hidden.getD
              (canvas.renderer.buffer.position_to_index { x := pos.x, y := pos.y / 2 })
              Cell.defaultCell) (some col)
        else
          BlockCellMut.set_bottom
            (canvas.renderer.buffer.hidden.getD
              (canvas.renderer.buffer.position_to_index { x := pos.x, y := pos.y / 2 })
              Cell.defaultCell) (some col)) := by
    rw [hidxval2, hdraw]
    dsimp only
    exact List.get?_set_eq_of_lt _ (by simpa using hidxlen)
  have hfinal := color_at_of_get (canvas.draw pos (some col)) pos _
    (by rw [hgeom.1]; exact hx) (by rw [hgeom.1]; exact hy)
    (by rw [hgeom.2.1]; exact hbx) (by rw [hgeom.2.1]; exact hby)
    hget
  rw [hfinal]
  by_cases hpar : pos.y % 2 = 0 <;>
    simp [hpar, at_top_set_top, at_bottom_set_bottom]

/-- Erasing any pixel position (in or out of bounds) and reading the same
position back yields `none`, with no side conditions at all. -/
theorem color_at_draw_none (canvas : SimpleCanvas) (pos : U16Vec2) :
    (canvas.draw pos none).color_at pos = none := by
  by_cases hoob : canvas.size.x ≤ pos.x ∨ canvas.size.y ≤ pos.y
  · have hmiss := hbp_out_of_bounds canvas pos hoob
    rw [draw_miss canvas pos none hmiss]
    exact color_at_none_of_miss canvas pos (by rw [hmiss]; rfl)
  · push_neg at hoob
    obtain ⟨hx, hy⟩ := hoob
    have hbx : pos.x < canvas.renderer.buffer.size.x := hx
    have hsy2 : canvas.renderer.buffer.size.y * 2 % 65536 ≤
        canvas.renderer.buffer.size.y * 2 := Nat.mod_le _ _
    have hby : pos.y / 2 < canvas.renderer.buffer.size.y := by
      have h0 : pos.y < canvas.renderer.buffer.size.y * 2 % 65536 := hy
      omega
    by_cases hidxlen : canvas.renderer.buffer.position_to_index
        { x := pos.x, y := pos.y / 2 } < canvas.renderer.buffer.hidden.length
    · have hdraw := draw_eq_set canvas pos { x := pos.x, y := pos.y / 2 }
        (canvas.renderer.buffer.position_to_index { x := pos.x, y := pos.y / 2 }) none
        (hbp_in_bounds canvas pos hx hy) (at_mut_some _ _ hbx hby hidxlen)
      have hgeom := draw_preserves_geometry canvas pos none
      have hidxval2 : (canvas.draw pos none).renderer.buffer.position_to_index
          { x := pos.x, y := pos.y / 2 } =
          canvas.renderer.buffer.position_to_index { x := pos.x, y := pos.y / 2 } := by
        unfold DoubleBuffer.position_to_index
        rw [hgeom.2.1]
      have hget : (canvas.draw pos none).renderer.buffer.hidden.get?
          ((canvas.draw pos none).renderer.buffer.position_to_index
            { x := pos.x, y := pos.y / 2 }) =
          some (if pos.y % 2 = 0 then
              BlockCellMut.set_top
                (canvas.renderer.buffer.hidden.getD
                  (canvas.renderer.buffer.position_to_index { x := pos.x, y := pos.y / 2 })
                  Cell.defaultCell) none
            else
              BlockCellMut.set_bottom
                (canvas.renderer.buffer.hidden.getD
                  (canvas.renderer.buffer.position_to_index { x := pos.x, y := pos.y / 2 })
                  Cell.defaultCell) none) := by
        rw [hidxval2, hdraw]
        dsimp only
        exact List.get?_set_eq_of_lt _ (by simpa using hidxlen)
      have hfinal := color_at_of_get (canvas.draw pos none) pos _
        (by rw [hgeom.1]; exact hx) (by rw [hgeom.1]; exact hy)
        (by rw [hgeom.2.1]; exact hbx) (by rw [hgeom.2.1]; exact hby)
        hget
      rw [hfinal]
      by_cases hpar : pos.y % 2 = 0 <;>
        simp [hpar, BlockCellMut.set_top, BlockCellMut.set_bottom,
          at_top_unset_top, at_bottom_unset_bottom]
    · have hmut : canvas.renderer.buffer.at_mut { x := pos.x, y := pos.y / 2 } = none := by
        unfold DoubleBuffer.at_mut DoubleBuffer.bounds DoubleBuffer.get_mut
        rw [if_pos (by simp [hbx, hby]), if_neg hidxlen]
      rw [draw_miss_mut canvas pos _ none (hbp_in_bounds canvas pos hx hy) hmut]
      apply color_at_none_of_miss
      rw [hbp_in_bounds canvas pos hx hy]
      simp only [Option.some_bind]
      rw [atPos_eq_get canvas.renderer.buffer { x := pos.x, y := pos.y / 2 } hbx hby]
      exact List.get?_eq_none.2 (by omega)

/-! ## C1: draw/read round trip -/

/-- A canvas whose buffer is 1 column by 40000 rows (canvas pixel height
`2 * 40000 = 80000` wraps to `14464` in `u16`). -/
def canvasC1 : SimpleCanvas := { renderer := Renderer.new 40000 1 }

/-- C1 counterexample: on a 1x40000-cell buffer the pixel `(0, 20000)` is
in bounds by the claim's reading (`0 ≤ 20000 < 2 * 40000`), yet after
`point_with_color` the readback is `none`, because the canvas height
`2 * 40000` wraps to `14464` in `u16` and the draw is silently dropped. -/
theorem C1_counterexample :
    (0 : Int) ≤ 0 ∧ (0 : Int) < 1 ∧ (0 : Int) ≤ 20000 ∧ (20000 : Int) < 2 * 40000 ∧
    canvasC1.renderer.buffer.size = { x := 1, y := 40000 } ∧
    (canvasC1.point_with_color { x := 0, y := 20000 } Color.White).atPixel
      { x := 0, y := 20000 } = none := by
  refine ⟨by decide, by decide, by decide, by decide, by decide, ?_⟩
  decide

/-- C1 amended: the round trip holds for every pixel inside the *wrapped*
canvas size (`size().y = 2 * rows mod 2^16`), provided the buffer allocation
itself did not wrap (`size.x * size.y ≤ 65535`); and after `erase(p)`,
`at(p)` is `none` for EVERY `p`, unconditionally. -/
theorem C1_point_erase_readback (canvas : SimpleCanvas) (p : IVec2) (col : Color)
    (hlen : canvas.renderer.buffer.hidden.length =
      canvas.renderer.buffer.size.x * canvas.renderer.buffer.size.y)
    (hprod : canvas.renderer.buffer.size.x * canvas.renderer.buffer.size.y ≤ 65535)
    (hx0 : 0 ≤ p.x) (hy0 : 0 ≤ p.y)
    (hx : p.x < (canvas.size.x : Int)) (hy : p.y < (canvas.size.y : Int)) :
    (canvas.point_with_color p col).atPixel p = some col ∧
    (∀ (c : SimpleCanvas) (q : IVec2), (c.erase q).atPixel q = none) := by
  constructor
  · have hneg : ¬(p.x < 0 ∨ p.y < 0) := by omega
    unfold SimpleCanvas.point_with_color SimpleCanvas.atPixel
    rw [if_neg hneg, if_neg hneg]
    have hsy1 : 1 ≤ canvas.renderer.buffer.size.y := by
      by_contra h
      have h0 : canvas.renderer.buffer.size.y = 0 := by omega
      have h1 : canvas.size.y = 0 := by
        show canvas.renderer.buffer.size.y * 2 % 65536 = 0
        rw [h0]
      omega
    have hsx65535 : canvas.renderer.buffer.size.x ≤ 65535 := by
      have := Nat.le_mul_of_pos_right canvas.renderer.buffer.size.x (by omega :
        0 < canvas.renderer.buffer.size.y)
      omega
    have hsxeq : canvas.size.x = canvas.renderer.buffer.size.x := rfl
    have hsyeq : canvas.size.y = canvas.renderer.buffer.size.y * 2 % 65536 := rfl
    have hsy65535 : canvas.size.y ≤ 65535 := by
      rw [hsyeq]
      have := Nat.mod_lt (canvas.renderer.buffer.size.y * 2)
        (by norm_num : (0 : Nat) < 65536)
      omega
    have hpx : p.x % 65536 = p.x := Int.emod_eq_of_lt hx0 (by omega)
    have hpy : p.y % 65536 = p.y := Int.emod_eq_of_lt hy0 (by omega)
    have hposx : (IVec2.as_u16vec2 p).x = p.x.toNat := by
      unfold IVec2.as_u16vec2
      rw [hpx]
    have hposy : (IVec2.as_u16vec2 p).y = p.y.toNat := by
      unfold IVec2.as_u16vec2
      rw [hpy]
    apply color_at_draw_some canvas (IVec2.as_u16vec2 p) col hlen hprod
    · rw [hposx]; omega
    · rw [hposy]; omega
  · intro c q
    unfold SimpleCanvas.erase SimpleCanvas.atPixel
    by_cases hng : q.x < 0 ∨ q.y < 0
    · rw [if_pos hng]
    · rw [if_neg hng, if_neg hng]
      exact color_at_draw_none c q.as_u16vec2

/-- Witness for C1 amended on a 2x2-cell (2x4-pixel) canvas. -/
theorem C1_point_erase_readback_witness :
    (({ renderer := Renderer.new 2 2 } : SimpleCanvas).point_with_color
        { x := 1, y := 2 } Color.Green).atPixel { x := 1, y := 2 } = some Color.Green :=
  (C1_point_erase_readback { renderer := Renderer.new 2 2 } { x := 1, y := 2 } Color.Green
    (by decide) (by decide) (by decide) (by decide) (by decide) (by decide)).1

/-! ## C3: the first render is not forced-full -/

/-- C3 counterexample: immediately after `Renderer::new` for a 2x2 terminal
the render diff is empty, not the `size.x * size.y = 4` entries the claim
requires, because `Renderer::new` initialises `redraw` to `false`. -/
theorem C3_counterexample :
    (Renderer.new 2 2).renderDiff = [] ∧
    (Renderer.new 2 2).buffer.size.x * (Renderer.new 2 2).buffer.size.y = 4 := by
  exact ⟨by decide, by decide⟩

/-- C3 amended: `Renderer::new` starts with `redraw = false`, so the first
render diffs two identical fresh grids and emits nothing (only cells drawn
before the first render would be emitted); a forced-full diff happens only
after `resize` (or `set_background_color`), which set the redraw flag. -/
theorem C3_first_render_not_forced (rows cols : Nat) :
    (Renderer.new rows cols).redraw = false ∧
    (Renderer.new rows cols).renderDiff = [] ∧
    (∀ size : U16Vec2, ((Renderer.new rows cols).resize size).redraw = true) ∧
    (∀ color : Option Color,
      ((Renderer.new rows cols).set_background_color color).redraw = true) := by
  refine ⟨rfl, ?_, fun _ => rfl, fun _ => rfl⟩
  unfold Renderer.renderDiff Renderer.new DoubleBuffer.diff DoubleBuffer.from_values
    DoubleBuffer.from_size DoubleBuffer.len
  apply List.filterMap_eq_nil.2
  intro i _
  simp

/-! ## C4: out-of-bounds safety -/

/-- A 2x2-cell canvas for the C4 counterexample. -/
def canvasC4 : SimpleCanvas := { renderer := Renderer.new 2 2 }

/-- C4 counterexample: pixel `(0, 65536)` is far outside the 2x4-pixel
canvas, yet `point_with_color` is NOT a no-op: the public interface casts
`i32` to `u16` with wrap-around, so the coordinate aliases `(0, 0)` and the
write grid changes. -/
theorem C4_counterexample :
    ((canvasC4.size.y : Int) ≤ 65536 ∧ (0 : Int) ≤ 65536 ∧ (0 : Int) ≤ 0) ∧
    (canvasC4.point_with_color { x := 0, y := 65536 } Color.White).renderer.buffer.hidden ≠
      canvasC4.renderer.buffer.hidden := by
  exact ⟨by decide, by decide⟩

/-- C4 amended: `at`/`at_mut` return `none` out of bounds (never a fault);
a draw whose mod-2^16-wrapped pixel position misses the canvas is a silent
no-op; and negative coordinates at the public interface are silent no-ops.
Coordinates at or above 2^16, however, wrap and may alias in-canvas pixels. -/
theorem C4_out_of_bounds_safe :
    (∀ (b : DoubleBuffer) (pos : U16Vec2), b.bounds pos = false →
      b.atPos pos = none ∧ b.at_mut pos = none) ∧
    (∀ (c : SimpleCanvas) (pos : U16Vec2) (col : Option Color),
      c.size.x ≤ pos.x ∨ c.size.y ≤ pos.y → c.draw pos col = c) ∧
    (∀ (c : SimpleCanvas) (q : IVec2) (col : Color), q.x < 0 ∨ q.y < 0 →
      c.point_with_color q col = c ∧ c.erase q = c ∧ c.atPixel q = none) := by
  refine ⟨?_, ?_, ?_⟩
  · intro b pos hb
    unfold DoubleBuffer.atPos DoubleBuffer.at_mut
    rw [if_neg (by simp [hb]), if_neg (by simp [hb])]
    exact ⟨rfl, rfl⟩
  · intro c pos col h
    exact draw_miss c pos col (hbp_out_of_bounds c pos h)
  · intro c q col h
    unfold SimpleCanvas.point_with_color SimpleCanvas.erase SimpleCanvas.atPixel
    rw [if_pos h, if_pos h, if_pos h]
    exact ⟨rfl, rfl, rfl⟩

/-- Witness for C4 amended at concrete out-of-bounds positions. -/
theorem C4_out_of_bounds_safe_witness :
    canvasC4.renderer.buffer.atPos { x := 5, y := 0 } = none ∧
    canvasC4.draw { x := 5, y := 0 } (some Color.White) = canvasC4 ∧
    canvasC4.erase { x := -1, y := 0 } = canvasC4 :=
  ⟨(C4_out_of_bounds_safe.1 canvasC4.renderer.buffer { x := 5, y := 0 } (by decide)).1,
   C4_out_of_bounds_safe.2.1 canvasC4 { x := 5, y := 0 } (some Color.White) (by decide),
   (C4_out_of_bounds_safe.2.2 canvasC4 { x := -1, y := 0 } Color.White (by decide)).2.1⟩

/-! ## C5: alignment resolution -/

/-- C5: the code computes `TOP.apply((10,11)) = (5,0)`, not the `(4,0)`
asserted by the spec and by the repo's own `apply_canvas_align` test
(`style/mod.rs`), because `canvas_limit` is taken as `canvas_size` itself
rather than `canvas_size - (1,1)`; likewise `BOTTOM` yields `(5,11)` (a
position outside the canvas) instead of `(4,10)`. -/
theorem C5_alignment_divergence :
    CanvasAlignment.apply CanvasAlignment.TOP { x := 10, y := 11 } = { x := 5, y := 0 } ∧
    CanvasAlignment.apply CanvasAlignment.BOTTOM { x := 10, y := 11 } = { x := 5, y := 11 } ∧
    CanvasAlignment.apply CanvasAlignment.LEFT { x := 10, y := 11 } = { x := 0, y := 5 } ∧
    CanvasAlignment.apply CanvasAlignment.RIGHT { x := 10, y := 11 } = { x := 10, y := 5 } ∧
    ({ x := 5, y := 0 } : U16Vec2) ≠ { x := 4, y := 0 } := by
  refine ⟨?_, ?_, ?_, ?_, by decide⟩ <;>
    · unfold CanvasAlignment.apply
      simp only [CanvasAlignment.TOP, CanvasAlignment.BOTTOM, CanvasAlignment.LEFT,
        CanvasAlignment.RIGHT, U16Vec2.as_vec2, Vec2.half, Vec2.with_x, Vec2.with_y,
        Vec2.neg, Vec2.add, Vec2.as_u16vec2, satU16, Option.getD, Option.map,
        Bool.false_eq_true, if_false, if_true, U16Vec2.mk.injEq]
      norm_num
      omega

/-! ## C7: circle stroke defaults -/

/-- A circle with only the outer stroke set, for the C7 counterexample. -/
def circleC7 : Circle :=
  { radius := 2, inner_stroke := none, outer_stroke := some 1,
    stroke_color := none, filled := false }

/-- C7 counterexample: with `inner_stroke = None` but `outer_stroke = Some 1`,
the effective inner stroke is `0`, not the claimed `0.5`: the `0.5` default
applies only when BOTH strokes are unset. -/
theorem C7_counterexample :
    circleC7.inner_stroke = none ∧ circleC7.outer_stroke = some 1 ∧
    circleC7.innerStrokeValue = 0 ∧ (0 : ℚ) ≠ 1 / 2 := by
  exact ⟨rfl, rfl, by decide, by norm_num⟩

/-- C7 amended: each stroke width defaults to `0.5` only when BOTH strokes
are unset; when exactly one is set the other defaults to `0`; a set stroke
is returned as given. -/
theorem C7_stroke_defaults (circle : Circle) :
    (circle.inner_stroke = none → circle.outer_stroke = none →
      circle.innerStrokeValue = 1 / 2 ∧ circle.outerStrokeValue = 1 / 2) ∧
    (∀ w, circle.inner_stroke = none → circle.outer_stroke = some w →
      circle.innerStrokeValue = 0) ∧
    (∀ w, circle.outer_stroke = none → circle.inner_stroke = some w →
      circle.outerStrokeValue = 0) ∧
    (∀ w, circle.inner_stroke = some w → circle.innerStrokeValue = w) ∧
    (∀ w, circle.outer_stroke = some w → circle.outerStrokeValue = w) := by
  unfold Circle.innerStrokeValue Circle.outerStrokeValue
  refine ⟨?_, ?_, ?_, ?_, ?_⟩ <;> intros <;> simp_all

/-- Witness for C7 amended: both strokes unset default to `0.5` each. -/
theorem C7_stroke_defaults_witness :
    Circle.innerStrokeValue
        { radius := 1, inner_stroke := none, outer_stroke := none,
          stroke_color := none, filled := false } = 1 / 2 ∧
    Circle.outerStrokeValue
        { radius := 1, inner_stroke := none, outer_stroke := none,
          stroke_color := none, filled := false } = 1 / 2 :=
  (C7_stroke_defaults
    { radius := 1, inner_stroke := none, outer_stroke := none,
      stroke_color := none, filled := false }).1 rfl rfl

/-! ## C9: position/index mapping -/

/-- A 256x257 buffer: `size.x * size.y = 65792` overflows `u16`. -/
def bufC9 : DoubleBuffer := DoubleBuffer.from_size { x := 256, y := 257 }

/-- C9 counterexample: on a 256x257 buffer the in-bounds position `(0, 256)`
maps to index `256 * 256 mod 2^16 = 0` (the `u16` multiply wraps), which maps
back to `(0, 0)`, so the mapping is not a bijection for every buffer size. -/
theorem C9_counterexample :
    (0 < bufC9.size.x ∧ 256 < bufC9.size.y) ∧
    bufC9.position_to_index { x := 0, y := 256 } = 0 ∧
    bufC9.index_to_position (bufC9.position_to_index { x := 0, y := 256 }) =
      { x := 0, y := 0 } ∧
    ({ x := 0, y := 0 } : U16Vec2) ≠ { x := 0, y := 256 } := by
  exact ⟨by decide, by decide, by decide, by decide⟩

/-- C9 amended: the mappings are mutually inverse for every buffer size whose
cell count `size.x * size.y` is at most `2^16` (so no `u16` wrap occurs), and
in particular `(5,7) ↔ 75` on a 10x20 buffer. -/
theorem C9_index_bijection (b : DoubleBuffer) (pos : U16Vec2)
    (hprod : b.size.x * b.size.y ≤ 65536)
    (hx : pos.x < b.size.x) (hy : pos.y < b.size.y) :
    b.index_to_position (b.position_to_index pos) = pos ∧
    (∀ i, i < b.size.x * b.size.y → b.position_to_index (b.index_to_position i) = i) ∧
    (DoubleBuffer.from_size { x := 10, y := 20 }).position_to_index { x := 5, y := 7 } = 75 ∧
    (DoubleBuffer.from_size { x := 10, y := 20 }).index_to_position 75 = { x := 5, y := 7 } := by
  refine ⟨?_, ?_, by decide, by decide⟩
  · obtain ⟨px, py⟩ := pos
    unfold DoubleBuffer.position_to_index DoubleBuffer.index_to_position
    dsimp only
    dsimp only at hx hy
    obtain ⟨sy', hsy'⟩ : ∃ s, b.size.y = s + 1 := ⟨b.size.y - 1, by omega⟩
    have hA : b.size.x * py ≤ b.size.x * sy' := Nat.mul_le_mul_left _ (by omega)
    have hsucc : b.size.x * (sy' + 1) = b.size.x * sy' + b.size.x := Nat.mul_succ _ _
    have hprod' : b.size.x * (sy' + 1) ≤ 65536 := by rw [← hsy']; exact hprod
    have hm1 : b.size.x * py % 65536 = b.size.x * py := Nat.mod_eq_of_lt (by omega)
    have hm2 : (b.size.x * py + px) % 65536 = b.size.x * py + px :=
      Nat.mod_eq_of_lt (by omega)
    rw [hm1, hm2, hm2, Nat.mul_add_mod, Nat.mod_eq_of_lt hx,
      Nat.mul_add_div (by omega), Nat.div_eq_of_lt hx]
    simp
  · intro i hi
    unfold DoubleBuffer.position_to_index DoubleBuffer.index_to_position
    dsimp only
    have hi65536 : i < 65536 := by omega
    have hsx0 : 0 < b.size.x := by
      by_contra h
      have h0 : b.size.x = 0 := by omega
      rw [h0, Nat.zero_mul] at hi
      omega
    have hdm : b.size.x * (i / b.size.x) + i % b.size.x = i := Nat.div_add_mod i _
    have him : i % 65536 = i := Nat.mod_eq_of_lt hi65536
    rw [him]
    have hm1 : b.size.x * (i / b.size.x) % 65536 = b.size.x * (i / b.size.x) :=
      Nat.mod_eq_of_lt (by omega)
    rw [hm1, hdm, him]

/-- Witness for C9 amended on the 10x20 buffer at position `(5,7)`. -/
theorem C9_index_bijection_witness :
    (DoubleBuffer.from_size { x := 10, y := 20 }).index_to_position
      ((DoubleBuffer.from_size { x := 10, y := 20 }).position_to_index
        { x := 5, y := 7 }) = { x := 5, y := 7 } :=
  (C9_index_bijection (DoubleBuffer.from_size { x := 10, y := 20 }) { x := 5, y := 7 }
    (by decide) (by decide) (by decide)).1

/-! ## C6: anti-aliased line blending -/

/-- C6: at the moment a traversed pixel `(p, m)` is processed, it is painted
with `bg + (requested - bg) * coverage` per channel, where `bg` is the color
read back from the canvas at that pixel just before painting (via
`background_rgb_at_or_default`, which falls back to the canvas default
background and then black); and for channel values in `0..255` and coverage
in `[0,1]`, the painted value is the floor (truncation) of that formula and
again lies in `0..255`. -/
theorem C6_aa_line_blend (c : SimpleCanvas) (pre post : List ((Int × Int) × ℚ))
    (p : Int × Int) (m : ℚ) (col : Rgb8) (hm0 : 0 ≤ m) (hm1 : m ≤ 1) :
    (c.draw_aa_line_on (pre ++ (p, m) :: post) (some col) =
      ((c.draw_aa_line_on pre (some col)).draw
          { x := (p.1 % 65536).toNat, y := (p.2 % 65536).toNat }
          (some (Color.Rgb
            (rustAsU8 (lerp
              (((c.draw_aa_line_on pre (some col)).background_rgb_at_or_default
                { x := (p.1 % 65536).toNat, y := (p.2 % 65536).toNat }).r : ℚ)
              (col.r : ℚ) m))
            (rustAsU8 (lerp
              (((c.draw_aa_line_on pre (some col)).background_rgb_at_or_default
                { x := (p.1 % 65536).toNat, y := (p.2 % 65536).toNat }).g : ℚ)
              (col.g : ℚ) m))
            (rustAsU8 (lerp
              (((c.draw_aa_line_on pre (some col)).background_rgb_at_or_default
                { x := (p.1 % 65536).toNat, y := (p.2 % 65536).toNat }).b : ℚ)
              (col.b : ℚ) m))))).draw_aa_line_on post (some col)) ∧
    (∀ bch fch : Nat, bch ≤ 255 → fch ≤ 255 →
      rustAsU8 (lerp (bch : ℚ) (fch : ℚ) m) =
        (Int.floor ((bch : ℚ) + ((fch : ℚ) - (bch : ℚ)) * m)).toNat ∧
      rustAsU8 (lerp (bch : ℚ) (fch : ℚ) m) ≤ 255) := by
  constructor
  · unfold SimpleCanvas.draw_aa_line_on
    rw [List.foldl_append, List.foldl_cons]
    rfl
  · intro bch fch hb hf
    have hb' : (bch : ℚ) ≤ 255 := by exact_mod_cast hb
    have hf' : (fch : ℚ) ≤ 255 := by exact_mod_cast hf
    have hb0 : (0 : ℚ) ≤ (bch : ℚ) := by positivity
    have hf0 : (0 : ℚ) ≤ (fch : ℚ) := by positivity
    have hle : (0 : ℚ) ≤ (bch : ℚ) + ((fch : ℚ) - (bch : ℚ)) * m := by
      rcases le_total (bch : ℚ) (fch : ℚ) with h | h
      · nlinarith
      · nlinarith
    have hub : (bch : ℚ) + ((fch : ℚ) - (bch : ℚ)) * m ≤ 255 := by
      rcases le_total (bch : ℚ) (fch : ℚ) with h | h
      · nlinarith
      · nlinarith
    have hfl0 : 0 ≤ Int.floor ((bch : ℚ) + ((fch : ℚ) - (bch : ℚ)) * m) :=
      Int.floor_nonneg.2 hle
    have hfl255 : Int.floor ((bch : ℚ) + ((fch : ℚ) - (bch : ℚ)) * m) ≤ 255 := by
      have h1 : ((Int.floor ((bch : ℚ) + ((fch : ℚ) - (bch : ℚ)) * m) : ℚ)) ≤
          (bch : ℚ) + ((fch : ℚ) - (bch : ℚ)) * m := Int.floor_le _
      have h2 : ((Int.floor ((bch : ℚ) + ((fch : ℚ) - (bch : ℚ)) * m) : ℚ)) ≤ 255 :=
        le_trans h1 hub
      exact_mod_cast h2
    unfold rustAsU8 lerp
    omega

/-- Witness for C6, blending black and white at coverage one half. -/
theorem C6_aa_line_blend_witness :
    rustAsU8 (lerp ((0 : Nat) : ℚ) ((255 : Nat) : ℚ) (1 / 2)) =
      (Int.floor (((0 : Nat) : ℚ) + (((255 : Nat) : ℚ) - ((0 : Nat) : ℚ)) * (1 / 2))).toNat ∧
    rustAsU8 (lerp ((0 : Nat) : ℚ) ((255 : Nat) : ℚ) (1 / 2)) ≤ 255 :=
  (C6_aa_line_blend { renderer := Renderer.new 2 2 } [] [] (0, 0) (1 / 2)
    { r := 255, g := 255, b := 255 } (by norm_num) (by norm_num)).2
    0 255 (by norm_num) (by norm_num)

/-! ## C8: degenerate geometry -/

/-- A 2x2-cell canvas for the C8 counterexample. -/
def canvasC8 : SimpleCanvas := { renderer := Renderer.new 2 2 }

/-- C8 counterexample: a zero-length line from `(1,1)` to `(1,1)` is NOT a
no-op: the Bresenham iterator yields its start point even when start equals
end, so the single pixel `(1,1)` is drawn. -/
theorem C8_counterexample :
    (canvasC8.draw_line { x := 1, y := 1 } { x := 1, y := 1 }
        (some Color.White)).renderer.buffer.hidden ≠
      canvasC8.renderer.buffer.hidden ∧
    (canvasC8.draw_line { x := 1, y := 1 } { x := 1, y := 1 }
        (some Color.White)).atPixel { x := 1, y := 1 } = some Color.White := by
  exact ⟨by decide, by decide⟩

/-- C8 amended: a circle with `radius ≤ 0` is a silent no-op, as claimed; but
a zero-length line is NOT a no-op: its Bresenham traversal is exactly `[p]`,
so it behaves as drawing the single pixel `p` (skipped only when a coordinate
is negative), reporting no error. -/
theorem C8_degenerate_geometry (c : SimpleCanvas) (pos : Vec2) (circle : Circle)
    (p : Int × Int) (col : Option Color) (hr : circle.radius ≤ 0) :
    c.draw_aa_circle pos circle = c ∧
    bresenhamPoints p p = [p] ∧
    (∀ s : SimpleCanvas,
      s.draw_line { x := p.1, y := p.2 } { x := p.1, y := p.2 } col =
        if p.1 < 0 ∨ p.2 < 0 then s
        else s.draw { x := (p.1 % 65536).toNat, y := (p.2 % 65536).toNat } col) := by
  have hoct : Octant.new p p = 0 := by
    unfold Octant.new
    simp
  have hto : Octant.toOct 0 p = p := by
    unfold Octant.toOct
    simp
  have hfrom : Octant.fromOct 0 p = p := by
    unfold Octant.fromOct
    simp
  have hbres : bresenhamPoints p p = [p] := by
    unfold bresenhamPoints
    rw [hoct]
    dsimp only
    rw [hto]
    have hfuel : (p.1 + 1 - p.1).toNat = 1 := by omega
    rw [hfuel]
    have hsub : p.1 - p.1 = 0 := by omega
    have hsub2 : p.2 - p.2 = 0 := by omega
    rw [hsub, hsub2]
    unfold bresenhamLoop
    rw [if_pos (le_refl p.1), hfrom]
    simp [bresenhamLoop]
  refine ⟨?_, hbres, ?_⟩
  · unfold SimpleCanvas.draw_aa_circle
    rw [if_pos hr]
  · intro s
    unfold SimpleCanvas.draw_line
    dsimp only
    rw [hbres]
    simp only [List.foldl_cons, List.foldl_nil]

/-- Witness for C8 at radius zero on a concrete canvas. -/
theorem C8_degenerate_geometry_witness :
    canvasC8.draw_aa_circle { x := 1, y := 1 }
      { radius := 0, inner_stroke := none, outer_stroke := none,
        stroke_color := none, filled := false } = canvasC8 :=
  (C8_degenerate_geometry canvasC8 { x := 1, y := 1 }
    { radius := 0, inner_stroke := none, outer_stroke := none,
      stroke_color := none, filled := false } (0, 0) none (by norm_num)).1

end Clod
